import Mathlib

/-!
Verification of the Anker FF09 BLE protocol engine (framing codec, TLV codec,
IV derivation, status decoders, notification handler and request/response
correlator) against its natural-language specification.

Bytes are modelled as `Nat` (the `Uint8Array` invariant `< 256` is carried as a
hypothesis where a claim needs the arithmetic reading).  JS numbers produced by
the telemetry decoders are modelled as `ℚ`; `Math.round` is `⌊x + 1/2⌋`.
External platform primitives (AES-CBC via `crypto.subtle`, `TextEncoder`,
`Date.now`, timers) are modelled as explicit parameters or oracles.
-/

namespace Kinobench

/-- Frame header magic byte 1 (`FRAME_HEADER_1`). -/
def FRAME_HEADER_1 : Nat := 0xff

/-- Frame header magic byte 2 (`FRAME_HEADER_2`). -/
def FRAME_HEADER_2 : Nat := 0x09

/-- Command header constant byte 1 (`COMMAND_HEADER_1`). -/
def COMMAND_HEADER_1 : Nat := 0x03

/-- Command header constant byte 2 (`COMMAND_HEADER_2`). -/
def COMMAND_HEADER_2 : Nat := 0x00

/-- Encrypted flag bit on the command high byte (`COMMAND_FLAG_ENCRYPTED`). -/
def COMMAND_FLAG_ENCRYPTED : Nat := 0x40

/-- Ack flag bit on the command high byte (`COMMAND_FLAG_ACK`). -/
def COMMAND_FLAG_ACK : Nat := 0x08

/-- 16-bit ack mask (`COMMAND_ACK_MASK_16`). -/
def COMMAND_ACK_MASK_16 : Nat := 0x0800

/-- Comprehensive status command (`CMD_STATUS_FULL`). -/
def CMD_STATUS_FULL : Nat := 0x0500

/-- Alternate comprehensive status command (`CMD_STATUS_ALT_FULL`). -/
def CMD_STATUS_ALT_FULL : Nat := 0x0d00

/-- Live status command (`CMD_STATUS_LIVE`). -/
def CMD_STATUS_LIVE : Nat := 0x050e

/-- Charger full status command (`CMD_CHARGER_STATUS_FULL`). -/
def CMD_CHARGER_STATUS_FULL : Nat := 0x0200

/-- Charger live status command (`CMD_CHARGER_STATUS_LIVE`). -/
def CMD_CHARGER_STATUS_LIVE : Nat := 0x0300

/-- Charger auxiliary status command (`CMD_CHARGER_STATUS_AUX`). -/
def CMD_CHARGER_STATUS_AUX : Nat := 0x020a

/-- Charger port-switch command (`CMD_CHARGER_PORT_SWITCH`). -/
def CMD_CHARGER_PORT_SWITCH : Nat := 0x0207

/-- Device-info handshake command (`CMD_HANDSHAKE_INFO`). -/
def CMD_HANDSHAKE_INFO : Nat := 0x0029

/-- `xorChecksum(data)`: XOR of all bytes of `data` (fold from 0). -/
def xorChecksum (data : List Nat) : Nat :=
  data.foldl (· ^^^ ·) 0

/-- Little-endian 16-bit encoding used by `DataView.setUint16(_, v, true)`. -/
def u16le (v : Nat) : List Nat :=
  [v % 256, v / 256 % 256]

/-- `framePacket(payload)`: builds `[FF][09][len u16 LE][payload][checksum]`
where `len = payload.length + 5` and the checksum is the XOR of every byte of
the message before the checksum position (magic, length field and payload). -/
def framePacket (payload : List Nat) : List Nat :=
  let totalPacketLength := payload.length + 5
  let messageForChecksum :=
    FRAME_HEADER_1 :: FRAME_HEADER_2 :: u16le totalPacketLength ++ payload
  let checksum := xorChecksum messageForChecksum
  messageForChecksum ++ [checksum]

/-- A TLV record as passed to `buildTlvBuffer`: `{type: number, value: Uint8Array}`. -/
structure TlvRecord where
  type : Nat
  value : List Nat
deriving DecidableEq

/-- `buildTlvBuffer(tlvArray)`: concatenates `[type][value.length][value…]` per
record.  The `Uint8Array` stores truncate each written number to a byte, hence
the `% 256`. -/
def buildTlvBuffer (tlvArray : List TlvRecord) : List Nat :=
  tlvArray.flatMap (fun item =>
    item.type % 256 :: item.value.length % 256 :: item.value.map (· % 256))

/-- The JS `Map<number, Uint8Array>` produced by `parseTlv`, modelled as an
insertion-ordered association list with unique keys (maintained by `mapSet`). -/
abbrev TlvMap : Type := List (Nat × List Nat)

/-- `Map.get(k)`: value of the first (and only) entry with key `k`. -/
def mapGet : TlvMap → Nat → Option (List Nat)
  | [], _ => none
  | (k, v) :: rest, t => if t = k then some v else mapGet rest t

/-- `Map.has(k)`. -/
def mapHasKey (m : TlvMap) (k : Nat) : Bool :=
  (mapGet m k).isSome

/-- `Map.set(k, v)`: replaces the value of the existing entry with key `k` in
place, else appends a new entry at the end (JS `Map` insertion-order
semantics; keys are unique by construction). -/
def mapSet : TlvMap → Nat → List Nat → TlvMap
  | [], k, v => [(k, v)]
  | (ak, av) :: rest, k, v =>
    if ak = k then (k, v) :: rest else (ak, av) :: mapSet rest k v

/-- `Map.size`. -/
def mapSize (m : TlvMap) : Nat :=
  m.length

/-- Loop body of `parseTlv`: while at least two bytes remain, read
`type`, `len`; stop if fewer than `len` bytes follow; otherwise bind
`type ↦ value` (overwriting) and continue past the record.  The loop advances
at least two bytes per iteration, so running it on fuel `data.length` is
exactly the source's unbounded `while`. -/
def parseTlvGo : Nat → List Nat → TlvMap → TlvMap
  | _, [], map => map
  | _, [_], map => map
  | 0, _ :: _ :: _, map => map
  | fuel + 1, t :: len :: rest, map =>
    if len ≤ rest.length then
      parseTlvGo fuel (rest.drop len) (mapSet map t (rest.take len))
    else map

/-- `parseTlv(data)`: parses a TLV byte stream into a type→value map. -/
def parseTlv (data : List Nat) : TlvMap :=
  parseTlvGo data.length data []

/-- `parseDecryptedTlv(data)`: skips one leading `0x00` pad byte, then `parseTlv`. -/
def parseDecryptedTlv (data : List Nat) : TlvMap :=
  match data with
  | 0 :: rest => parseTlv rest
  | _ => parseTlv data

/-- `isAckOnlyStatusTlv(tlv)`: exactly one entry, tag `0xA1`, 1-byte value. -/
def isAckOnlyStatusTlv (m : TlvMap) : Bool :=
  mapSize m == 1 && (mapGet m 0xa1).isSome && ((mapGet m 0xa1).getD []).length == 1

/-- Spec-side mapping (from the spec's words, for the round-trip claim): the
type→value mapping in which each type present in the record sequence is bound
to the value of its last occurrence, with no other entries. -/
def lastWriteWinsLookup : List TlvRecord → Nat → Option (List Nat)
  | [], _ => none
  | r :: rest, t =>
    match lastWriteWinsLookup rest t with
    | some v => some v
    | none => if t = r.type then some r.value else none

/-- Port mode strings `'Off' | 'Input' | 'Output'`. -/
inductive PortMode where
  | Off
  | Input
  | Output
deriving DecidableEq

/-- `AnkerPortData` record. -/
structure AnkerPortData where
  mode : PortMode
  voltage : ℚ
  current : ℚ
  power : ℚ
deriving DecidableEq

/-- `AnkerPowerStatus` record. -/
structure AnkerPowerStatus where
  batteryPercent : ℚ
  temperature : ℚ
  totalInputW : ℚ
  totalOutputW : ℚ
  usbC1 : AnkerPortData
  usbC2 : AnkerPortData
  usbA : AnkerPortData
deriving DecidableEq

/-- `Math.round` on the (nonnegative) values produced here: round half up. -/
def mathRound (x : ℚ) : ℤ :=
  ⌊x + 1 / 2⌋

/-- `Math.round(x * 10) / 10`, the one-decimal rounding used for power values. -/
def roundTo1 (x : ℚ) : ℚ :=
  (mathRound (x * 10) : ℚ) / 10

/-- `clampPercent(value)`: clamps into `[0, 100]`. -/
def clampPercent (value : ℚ) : ℚ :=
  max 0 (min 100 value)

/-- `parseU16LE(data, index)`: 0 when out of bounds, else
`data[index] | (data[index + 1] << 8)`. -/
def parseU16LE (data : List Nat) (index : Nat) : Nat :=
  if index + 1 ≥ data.length then 0
  else Nat.lor (data.getD index 0) (Nat.shiftLeft (data.getD (index + 1) 0) 8)

/-- `DataView.getUint16(i, true)` on an in-bounds byte buffer: little-endian
16-bit read. -/
def dvGetUint16LE (data : List Nat) (i : Nat) : Nat :=
  data.getD i 0 + 256 * data.getD (i + 1) 0

/-- `getModeString(mode)`: 1 ↦ Input, 2 ↦ Output, else Off. -/
def getModeString (mode : Nat) : PortMode :=
  if mode = 1 then .Input else if mode = 2 then .Output else .Off

/-- `emptyPortData()`. -/
def emptyPortData : AnkerPortData :=
  { mode := .Off, voltage := 0, current := 0, power := 0 }

/-- `emptyPowerStatus()`. -/
def emptyPowerStatus : AnkerPowerStatus :=
  { batteryPercent := 0, temperature := 0, totalInputW := 0, totalOutputW := 0,
    usbC1 := emptyPortData, usbC2 := emptyPortData, usbA := emptyPortData }

/-- `parsePortData(value)` (powerbank port record): requires 7 bytes; mode from
byte 2, voltage/current from deci-units at LE u16 offsets 3 and 5, power is the
product rounded to one decimal. -/
def parsePortData (value : List Nat) : AnkerPortData :=
  if value.length < 7 then { mode := .Off, voltage := 0, current := 0, power := 0 }
  else
    let mode := getModeString (value.getD 2 0)
    let voltage : ℚ := (dvGetUint16LE value 3 : ℚ) / 10
    let current : ℚ := (dvGetUint16LE value 5 : ℚ) / 10
    { mode := mode, voltage := voltage, current := current,
      power := roundTo1 (voltage * current) }

/-- `parseA2687PortData(value)` (charger port record): requires 8 bytes; byte 1
is the enabled flag, bytes 2-3 are LE millivolts, bytes 4-5 the LE raw current;
a port with an unset flag or zero voltage-and-current is normalized to Off. -/
def parseA2687PortData (value : List Nat) : AnkerPortData :=
  if value.length < 8 then { mode := .Off, voltage := 0, current := 0, power := 0 }
  else
    let millivolts := parseU16LE value 2
    let currentRaw := parseU16LE value 4
    let enabledFlag := value.getD 1 0
    if enabledFlag = 0 ∨ (millivolts = 0 ∧ currentRaw = 0) then
      { mode := .Off, voltage := 0, current := 0, power := 0 }
    else
      let voltage : ℚ := (mathRound ((millivolts : ℚ) / 1000 * 1000) : ℚ) / 1000
      let current : ℚ := (mathRound ((currentRaw : ℚ) / 1000 * 1000) : ℚ) / 1000
      { mode := .Output, voltage := voltage, current := current,
        power := roundTo1 (voltage * current) }

/-- `parseBatteryPercent(value)`: `null` when shorter than 10 bytes, else the
clamped two-decimal rounding of `value[8] + value[9] / 100`. -/
def parseBatteryPercent (value : List Nat) : Option ℚ :=
  if value.length < 10 then none
  else
    let whole : ℚ := (value.getD 8 0 : ℚ)
    let fractional : ℚ := (value.getD 9 0 : ℚ) / 100
    some (clampPercent ((mathRound ((whole + fractional) * 100) : ℚ) / 100))

/-- `normalizeIvFromSerial(serial)` after the external `TextEncoder` step:
takes the serial's encoded bytes; if exactly 16 returns them unchanged,
otherwise writes them (truncated to 16 when longer) into a zero-filled
16-byte array. -/
def normalizeIvFromSerial (serialBytes : List Nat) : List Nat :=
  if serialBytes.length = 16 then serialBytes
  else (List.range 16).map (fun i => serialBytes.getD i 0)

/-- `CryptoState`. -/
inductive CryptoState where
  | INACTIVE
  | Initial
  | Session
deriving DecidableEq

/-- `chargerStatusSource` field values. -/
inductive ChargerStatusSource where
  | Pending
  | FF09
  | SolixEncrypted
deriving DecidableEq

/-- The mutable fields of `AnkerBleService` touched by the notification path.
`activeKey` stores the raw bytes handed to `crypto.subtle.importKey`;
`pending` models whether `resolveNextNotification` is installed;
`chargerTelemetrySeenAt` stores the `Date.now()` reading. -/
structure ServiceState where
  profileIsCharger : Bool
  cryptoState : CryptoState
  activeKey : Option (List Nat)
  activeIv : List Nat
  lastPowerStatus : AnkerPowerStatus
  chargerStatusSource : ChargerStatusSource
  chargerTelemetrySeenAt : Option Nat
  solixNegotiationStartedAt : Option Nat
  solixNegotiationPacketCount : Nat
  solixSharedKey : Option (List Nat)
  serialNumber : List Nat
  lastReceivedCommand : Option Nat
  lastReceivedWasEncrypted : Bool
  decryptSuccessCount : Nat
  decryptErrorCount : Nat
  pending : Bool
deriving DecidableEq

/-- Result of `processDecryptedContent`: the new service state, the payload of
an `onPowerStatus` callback if one fired, and the payload of an
`onCryptoStateChange` callback if one fired. -/
structure ProcResult where
  state : ServiceState
  powerEvent : Option AnkerPowerStatus
  cryptoEvent : Option CryptoState
deriving DecidableEq

/-- `setupCrypto(keyBytes, ivBytes, state)`: imports the raw key bytes, stores
the IV and the new crypto state (the `onCryptoStateChange` callback is recorded
by the caller in `ProcResult.cryptoEvent`). -/
def setupCrypto (keyBytes ivBytes : List Nat) (state : CryptoState)
    (st : ServiceState) : ServiceState :=
  { st with activeKey := some keyBytes, activeIv := ivBytes, cryptoState := state }

/-- `parseComprehensiveStatus(tlv)` (commands 0x0500/0x0D00): rebuilds the
status from `emptyPowerStatus()`, patching in battery (A2), temperature (B3),
totals (AE) and ports (A4/A5/A6), then stores and emits it. -/
def parseComprehensiveStatus (tlv : TlvMap) (st : ServiceState) (now : Nat) :
    ProcResult :=
  let s0 := emptyPowerStatus
  let s1 := match mapGet tlv 0xa2 with
    | some batteryData =>
      match parseBatteryPercent batteryData with
      | some batteryPercent => { s0 with batteryPercent := batteryPercent }
      | none => s0
    | none => s0
  let s2 := match mapGet tlv 0xb3 with
    | some tempData =>
      if tempData.length > 1 then { s1 with temperature := (tempData.getD 1 0 : ℚ) }
      else s1
    | none => s1
  let s3 := match mapGet tlv 0xae with
    | some totals =>
      if totals.length ≥ 5 then
        { s2 with totalOutputW := (dvGetUint16LE totals 1 : ℚ) / 10,
                  totalInputW := (dvGetUint16LE totals 3 : ℚ) / 10 }
      else s2
    | none => s2
  let s4 := match mapGet tlv 0xa4 with
    | some v => { s3 with usbC1 := parsePortData v }
    | none => s3
  let s5 := match mapGet tlv 0xa5 with
    | some v => { s4 with usbC2 := parsePortData v }
    | none => s4
  let s6 := match mapGet tlv 0xa6 with
    | some v => { s5 with usbA := parsePortData v }
    | none => s5
  let st1 :=
    { st with
        lastPowerStatus := s6
        chargerStatusSource :=
          if st.profileIsCharger then .FF09 else st.chargerStatusSource
        chargerTelemetrySeenAt :=
          if st.profileIsCharger then some now else st.chargerTelemetrySeenAt }
  { state := st1, powerEvent := some s6, cryptoEvent := none }

/-- `parseLivePowerStatus(tlv)` (command 0x050E): clones the last known status
and patches in ports (A2/A3/A4), totals (A6) and battery (A8), then stores and
emits it. -/
def parseLivePowerStatus (tlv : TlvMap) (st : ServiceState) (now : Nat) :
    ProcResult :=
  let s0 := st.lastPowerStatus
  let s1 := match mapGet tlv 0xa2 with
    | some v => { s0 with usbC1 := parsePortData v }
    | none => s0
  let s2 := match mapGet tlv 0xa3 with
    | some v => { s1 with usbC2 := parsePortData v }
    | none => s1
  let s3 := match mapGet tlv 0xa4 with
    | some v => { s2 with usbA := parsePortData v }
    | none => s2
  let s4 := match mapGet tlv 0xa6 with
    | some totals =>
      if totals.length ≥ 5 then
        { s3 with totalOutputW := (dvGetUint16LE totals 1 : ℚ) / 10,
                  totalInputW := (dvGetUint16LE totals 3 : ℚ) / 10 }
      else s3
    | none => s3
  let s5 := match mapGet tlv 0xa8 with
    | some batteryData =>
      match parseBatteryPercent batteryData with
      | some batteryPercent => { s4 with batteryPercent := batteryPercent }
      | none => s4
    | none => s4
  let st1 :=
    { st with
        lastPowerStatus := s5
        chargerStatusSource :=
          if st.profileIsCharger then .FF09 else st.chargerStatusSource
        chargerTelemetrySeenAt :=
          if st.profileIsCharger then some now else st.chargerTelemetrySeenAt }
  { state := st1, powerEvent := some s5, cryptoEvent := none }

/-- `parseA2687Status(tlv, command)` (charger commands 0x0200/0x0300/0x020A):
clones the last known status, patches ports (A5/A6/A7), recomputes both totals
from the port powers, optionally updates temperature (A9), then stores and
emits it.  (The A2/A3 deci-watt reads in the source are computed but never
used.) -/
def parseA2687Status (tlv : TlvMap) (st : ServiceState) (now : Nat) :
    ProcResult :=
  let s0 := st.lastPowerStatus
  let s1 := match mapGet tlv 0xa5 with
    | some v => { s0 with usbC1 := parseA2687PortData v }
    | none => s0
  let s2 := match mapGet tlv 0xa6 with
    | some v => { s1 with usbC2 := parseA2687PortData v }
    | none => s1
  let s3 := match mapGet tlv 0xa7 with
    | some v => { s2 with usbA := parseA2687PortData v }
    | none => s2
  let computedOutW := roundTo1
    (max 0 s3.usbC1.power + max 0 s3.usbC2.power + max 0 s3.usbA.power)
  let s4 := { s3 with totalOutputW := computedOutW, totalInputW := computedOutW }
  let s5 := match mapGet tlv 0xa9 with
    | some tempOrState =>
      if tempOrState.length ≥ 2 then
        let candidate := tempOrState.getD 1 0
        if candidate ≤ 120 then { s4 with temperature := (candidate : ℚ) } else s4
      else s4
    | none => s4
  let st1 :=
    { st with
        lastPowerStatus := s5
        chargerStatusSource := .FF09
        chargerTelemetrySeenAt := some now }
  { state := st1, powerEvent := some s5, cryptoEvent := none }

/-- The status-command dispatch of `processDecryptedContent` (the part after
the session-key check): ACK-only TLV sets are recognized and ignored for every
status command; otherwise the matching status decoder runs.  The port-switch
response (0x0207) and unknown commands only log. -/
def dispatchStatus (normalizedCommand : Nat) (tlv : TlvMap) (st : ServiceState)
    (now : Nat) : ProcResult :=
  if normalizedCommand = CMD_STATUS_FULL ∨ normalizedCommand = CMD_STATUS_ALT_FULL then
    if isAckOnlyStatusTlv tlv then { state := st, powerEvent := none, cryptoEvent := none }
    else parseComprehensiveStatus tlv st now
  else if normalizedCommand = CMD_STATUS_LIVE then
    if isAckOnlyStatusTlv tlv then { state := st, powerEvent := none, cryptoEvent := none }
    else parseLivePowerStatus tlv st now
  else if normalizedCommand = CMD_CHARGER_STATUS_FULL ∨
      normalizedCommand = CMD_CHARGER_STATUS_LIVE ∨
      normalizedCommand = CMD_CHARGER_STATUS_AUX then
    if isAckOnlyStatusTlv tlv then { state := st, powerEvent := none, cryptoEvent := none }
    else parseA2687Status tlv st now
  else { state := st, powerEvent := none, cryptoEvent := none }

/-- `processDecryptedContent(command, decrypted)`: strips the 16-bit ack flag
from the command (`command & ~COMMAND_ACK_MASK_16`, i.e. `command & 0xF7FF` on
these 16-bit commands), parses the decrypted TLV stream, installs a 16-byte
`A1` value as the session key while the crypto state is `Initial` (keeping the
current IV and emitting the state change), and otherwise dispatches to the
status decoders. -/
def processDecryptedContent (command : Nat) (decrypted : List Nat)
    (st : ServiceState) (now : Nat) : ProcResult :=
  let normalizedCommand := Nat.land command 0xF7FF
  let tlv := parseDecryptedTlv decrypted
  if st.cryptoState = .Initial then
    match mapGet tlv 0xa1 with
    | some keyData =>
      if keyData.length = 16 then
        { state := setupCrypto keyData st.activeIv .Session st,
          powerEvent := none, cryptoEvent := some .Session }
      else dispatchStatus normalizedCommand tlv st now
    | none => dispatchStatus normalizedCommand tlv st now
  else dispatchStatus normalizedCommand tlv st now

/-- `isFramedPacket(rawData)`: at least 5 bytes and the `FF 09` magic. -/
def isFramedPacket (rawData : List Nat) : Bool :=
  rawData.length ≥ 5 && rawData.getD 0 0 == FRAME_HEADER_1 &&
    rawData.getD 1 0 == FRAME_HEADER_2

/-- `tryHandleChargerSolixNotification(rawData)`: returns whether the charger
Solix path consumed the notification, plus its synchronous state effect (the
packet counter; the ECDH negotiation and encrypted Solix telemetry parses are
launched asynchronously and are external to this synchronous step). -/
def tryHandleChargerSolixNotification (rawData : List Nat) (st : ServiceState) :
    Bool × ServiceState :=
  if st.chargerStatusSource = .FF09 then (false, st)
  else if rawData = [0x68, 0x65, 0x6c, 0x6c, 0x6f] then (true, st)
  else if isFramedPacket rawData then (false, st)
  else if st.solixSharedKey.isNone then
    if st.solixNegotiationStartedAt.isNone then (false, st)
    else (false, { st with
      solixNegotiationPacketCount := st.solixNegotiationPacketCount + 1 })
  else if rawData.length < 100 then (false, st)
  else (true, st)

/-- The `if (this.resolveNextNotification) { … }` resolution step: delivers a
value to the pending waiter if one is installed and clears the slot. -/
def resolvePending (st : ServiceState) (x : List Nat) :
    ServiceState × Option (List Nat) :=
  if st.pending then ({ st with pending := false }, some x) else (st, none)

/-- The ciphertext candidate list built in `handleNotification`: the payload
sliced 5 bytes past the command header start, then (when longer than 6 bytes)
the slice 6 bytes past it. -/
def mkDecryptCandidates (payloadWithHeader : List Nat) : List (List Nat) :=
  [payloadWithHeader.drop 5] ++
    (if payloadWithHeader.length > 6 then [payloadWithHeader.drop 6] else [])

/-- The `tryDecrypt` loop: skip candidates shorter than 16 bytes or of length
not a multiple of 16, return the first successful decryption, fail if every
candidate is skipped or fails.  `dec` is the AES-CBC decryption oracle for the
currently installed key and IV (`none` models a thrown padding error). -/
def tryDecryptCandidates (dec : List Nat → Option (List Nat)) :
    List (List Nat) → Option (List Nat)
  | [] => none
  | c :: rest =>
    if c.length < 16 ∨ c.length % 16 ≠ 0 then tryDecryptCandidates dec rest
    else
      match dec c with
      | some d => some d
      | none => tryDecryptCandidates dec rest

/-- Payload of the `onDeviceInfo` callback; the string fields are modelled as
the raw TLV bytes handed to `TextDecoder`, and `mac` as the first six bytes
that get hex-formatted (empty when fewer than six are present). -/
structure DeviceInfoEvt where
  mac : List Nat
  serial : List Nat
  firmware : List Nat
deriving DecidableEq

/-- `handlePlainResponse(command, tlvData)`: on the device-info handshake
response (0x0029 after stripping the ack bit) extracts firmware (A3), serial
(A4) and mac (A5), stores the serial and fires `onDeviceInfo`. -/
def handlePlainResponse (command : Nat) (tlvData : List Nat)
    (st : ServiceState) : ServiceState × Option DeviceInfoEvt :=
  let normalizedCommand := Nat.land command 0xF7FF
  let tlv := parseTlv tlvData
  if normalizedCommand = CMD_HANDSHAKE_INFO then
    let firmware := (mapGet tlv 0xa3).getD []
    let serial := (mapGet tlv 0xa4).getD []
    let mac := match mapGet tlv 0xa5 with
      | some macBytes => if macBytes.length ≥ 6 then macBytes.take 6 else []
      | none => []
    ({ st with serialNumber := serial },
      some { mac := mac, serial := serial, firmware := firmware })
  else (st, none)

/-- Everything observable from one synchronous run of `handleNotification`:
the new service state, the value delivered to the pending waiter (if one was
installed and resolved), and the callback payloads. -/
structure NotifResult where
  state : ServiceState
  resolved : Option (List Nat)
  powerEvent : Option AnkerPowerStatus
  cryptoEvent : Option CryptoState
  deviceInfo : Option DeviceInfoEvt
deriving DecidableEq

/-- `handleNotification(rawData)`.  `dec` is the AES decryption oracle (the
asynchronous decrypt settles before the waiter resolution, exactly as the
`.then`/`.catch` continuations do); `now` is the `Date.now()` reading.
Control flow mirrors the source: charger Solix interception, the short-packet
early resolve, header/checksum stripping, command field extraction, then the
encrypted branch (candidate decrypt, content processing, resolve with the
decrypted bytes on success and with the raw notification on failure) or the
plaintext branch (device-info parse, resolve with the stripped payload). -/
def handleNotification (dec : List Nat → Option (List Nat)) (rawData : List Nat)
    (st0 : ServiceState) (now : Nat) : NotifResult :=
  let gate := if st0.profileIsCharger then
    tryHandleChargerSolixNotification rawData st0 else (false, st0)
  let st := gate.2
  if gate.1 then
    { state := st, resolved := none, powerEvent := none, cryptoEvent := none,
      deviceInfo := none }
  else if rawData.length < 5 then
    let r := resolvePending st rawData
    { state := r.1, resolved := r.2, powerEvent := none, cryptoEvent := none,
      deviceInfo := none }
  else
    let payloadWithHeader := (rawData.drop 4).dropLast
    if payloadWithHeader.length ≥ 5 then
      let commandHighByte := payloadWithHeader.getD 3 0
      let commandLowByte := payloadWithHeader.getD 4 0
      let isEncrypted := Nat.land commandHighByte COMMAND_FLAG_ENCRYPTED ≠ 0
      let commandHighBase := Nat.land commandHighByte 0xB7
      let fullCommand := Nat.lor (Nat.shiftLeft commandHighBase 8) commandLowByte
      let st1 := { st with
        lastReceivedCommand := some fullCommand
        lastReceivedWasEncrypted := isEncrypted }
      if isEncrypted then
        if st1.activeKey.isNone then
          let r := resolvePending st1 payloadWithHeader
          { state := r.1, resolved := r.2, powerEvent := none,
            cryptoEvent := none, deviceInfo := none }
        else
          match tryDecryptCandidates dec (mkDecryptCandidates payloadWithHeader) with
          | some decrypted =>
            let st2 := { st1 with
              decryptSuccessCount := st1.decryptSuccessCount + 1 }
            let pr := processDecryptedContent fullCommand decrypted st2 now
            let r := resolvePending pr.state decrypted
            { state := r.1, resolved := r.2, powerEvent := pr.powerEvent,
              cryptoEvent := pr.cryptoEvent, deviceInfo := none }
          | none =>
            let st2 := { st1 with
              decryptErrorCount := st1.decryptErrorCount + 1 }
            let r := resolvePending st2 rawData
            { state := r.1, resolved := r.2, powerEvent := none,
              cryptoEvent := none, deviceInfo := none }
      else
        let pr := handlePlainResponse fullCommand (payloadWithHeader.drop 6) st1
        let r := resolvePending pr.1 payloadWithHeader
        { state := r.1, resolved := r.2, powerEvent := none, cryptoEvent := none,
          deviceInfo := pr.2 }
    else
      let r := resolvePending st payloadWithHeader
      { state := r.1, resolved := r.2, powerEvent := none, cryptoEvent := none,
        deviceInfo := none }

/-- Default `timeoutMs` of `sendAndWaitForResponse` / `waitForNextNotification`. -/
def defaultResponseTimeoutMs : Nat := 10000

/-- How the promise returned by `waitForNextNotification` settled. -/
inductive WaiterOutcome where
  | resolved (data : List Nat)
  | rejectedTimeout
deriving DecidableEq

/-- Lifecycle state of one `waitForNextNotification` call: whether its
`setTimeout` timer is still armed, whether `resolveNextNotification` still
holds its resolver, and how its promise settled (a JS promise settles at most
once; `none` = still pending). -/
structure WaiterState where
  timerActive : Bool
  slotInstalled : Bool
  outcome : Option WaiterOutcome
deriving DecidableEq

/-- State right after `waitForNextNotification` runs its executor: timer
armed, resolver installed, promise pending. -/
def initWaiter : WaiterState :=
  { timerActive := true, slotInstalled := true, outcome := none }

/-- The timer callback: when the timer fires it nulls
`resolveNextNotification` and rejects the promise with the response-timeout
error. -/
def onTimeoutFire (st : WaiterState) : WaiterState :=
  if st.timerActive then
    { timerActive := false, slotInstalled := false,
      outcome := match st.outcome with
        | some o => some o
        | none => some .rejectedTimeout }
  else st

/-- A notification delivering `data`: `handleNotification` resolves the
installed resolver (which clears the timer via `clearTimeout` and fulfils the
promise) and nulls the slot; with no resolver installed nothing happens. -/
def onNotify (data : List Nat) (st : WaiterState) : WaiterState :=
  if st.slotInstalled then
    { timerActive := false, slotInstalled := false,
      outcome := match st.outcome with
        | some o => some o
        | none => some (.resolved data) }
  else st

/-- Concrete power status used as a prior value in witnesses. -/
def demoStatus50 : AnkerPowerStatus :=
  { batteryPercent := 50, temperature := 25, totalInputW := 3, totalOutputW := 7,
    usbC1 := { mode := .Output, voltage := 5, current := 1, power := 5 },
    usbC2 := emptyPortData, usbA := emptyPortData }

/-- Concrete mid-session service state used in witnesses: powerbank profile,
session crypto active, a pending waiter installed. -/
def mkDemoState (status : AnkerPowerStatus) : ServiceState :=
  { profileIsCharger := false, cryptoState := .Session,
    activeKey := some (List.replicate 16 0), activeIv := List.replicate 16 0,
    lastPowerStatus := status, chargerStatusSource := .Pending,
    chargerTelemetrySeenAt := none, solixNegotiationStartedAt := none,
    solixNegotiationPacketCount := 0, solixSharedKey := none, serialNumber := [],
    lastReceivedCommand := none, lastReceivedWasEncrypted := false,
    decryptSuccessCount := 0, decryptErrorCount := 0, pending := true }

/-- Concrete encrypted response payload (command header + 17 ciphertext-ish
bytes, so the offset-5 slice has length 17, not a multiple of 16). -/
def demoPayloadWH : List Nat :=
  [0x03, 0x00, 0x11, 0x45, 0x00] ++ List.replicate 17 0

/-- The concrete encrypted notification framing `demoPayloadWH`. -/
def demoRawEnc : List Nat :=
  [0xFF, 0x09, 0x20, 0x00] ++ demoPayloadWH ++ [0x00]

/-- A concrete 16-byte session key used in witnesses. -/
def demoKey16 : List Nat :=
  [0, 1, 2, 3, 4, 5, 6, 7, 8, 9, 10, 11, 12, 13, 14, 15]

/- ------------------------------------------------------------------ -/
/- Helper lemmas                                                       -/
/- ------------------------------------------------------------------ -/

/-- Folding XOR from an arbitrary accumulator factors through the fold from 0. -/
theorem foldl_xor_factor (l : List Nat) (a : Nat) :
    l.foldl (· ^^^ ·) a = a ^^^ l.foldl (· ^^^ ·) 0 := by
  induction l generalizing a with
  | nil => simp
  | cons b t ih =>
    simp only [List.foldl_cons]
    rw [ih (a ^^^ b), ih (0 ^^^ b), Nat.zero_xor, Nat.xor_assoc]

/-- XOR checksum of a list with the two magic bytes prepended. -/
theorem xorChecksum_magic_cons (rest : List Nat) :
    xorChecksum (FRAME_HEADER_1 :: FRAME_HEADER_2 :: rest) =
      0xF6 ^^^ xorChecksum rest := by
  unfold xorChecksum FRAME_HEADER_1 FRAME_HEADER_2
  simp only [List.foldl_cons]
  rw [foldl_xor_factor]
  congr 1

/-- Reading a zero-padded 16-byte buffer position-wise is take-and-pad. -/
theorem rangeMap_getD_eq (n : Nat) (bs : List Nat) :
    (List.range n).map (fun i => bs.getD i 0) =
      bs.take n ++ List.replicate (n - bs.length) 0 := by
  induction n generalizing bs with
  | zero => simp
  | succ n ih =>
    cases bs with
    | nil =>
      have hf : (fun i => List.getD ([] : List Nat) i 0) = fun _ : Nat => 0 := by
        funext i
        simp
      rw [hf]
      simp [List.map_const']
    | cons b t =>
      rw [List.range_succ_eq_map, List.map_cons, List.map_map]
      have hf : (fun i => List.getD (b :: t) i 0) ∘ Nat.succ =
          fun i => List.getD t i 0 := by
        funext i
        simp
      rw [hf, ih t]
      simp [Nat.succ_sub_succ]

/- ------------------------------------------------------------------ -/
/- Claim theorems                                                      -/
/- ------------------------------------------------------------------ -/

/-- C1 (amended): `framePacket` emits
`[0xFF, 0x09, u16LE(len(P)+5), P, checksum]` where the trailing checksum byte
is the XOR of the magic bytes, the length-field bytes and the payload bytes —
that is, `0xF6 XOR (XOR of length field and payload)` — rather than excluding
the two magic bytes. -/
theorem framePacket_checksum_covers_magic (payload : List Nat) :
    framePacket payload =
      FRAME_HEADER_1 :: FRAME_HEADER_2 :: u16le (payload.length + 5) ++ payload ++
        [0xF6 ^^^ xorChecksum (u16le (payload.length + 5) ++ payload)] := by
  simp only [framePacket]
  rw [show FRAME_HEADER_1 :: FRAME_HEADER_2 :: u16le (payload.length + 5) ++ payload
    = FRAME_HEADER_1 :: FRAME_HEADER_2 :: (u16le (payload.length + 5) ++ payload)
    from rfl]
  rw [xorChecksum_magic_cons]

/-- C1 counterexample to the claim as stated: for `P = [03 00 01 00 01]` the
code emits trailing byte `0xFF`, whereas the XOR of the length-field and
payload bytes alone (the claim's checksum) is `0x09`. -/
theorem framePacket_claim_counterexample :
    framePacket [0x03, 0x00, 0x01, 0x00, 0x01] =
      [0xFF, 0x09, 0x0A, 0x00, 0x03, 0x00, 0x01, 0x00, 0x01, 0xFF] ∧
    xorChecksum [0x0A, 0x00, 0x03, 0x00, 0x01, 0x00, 0x01] = 0x09 ∧
    (0xFF : Nat) ≠ 0x09 := by
  decide

/-- C3: IV derivation returns exactly 16 bytes — the encoded serial bytes
zero-padded to 16 when shorter, unchanged when exactly 16, truncated to the
first 16 when longer. -/
theorem normalizeIvFromSerial_spec (serialBytes : List Nat) :
    (normalizeIvFromSerial serialBytes).length = 16 ∧
    (serialBytes.length < 16 →
      normalizeIvFromSerial serialBytes =
        serialBytes ++ List.replicate (16 - serialBytes.length) 0) ∧
    (serialBytes.length = 16 → normalizeIvFromSerial serialBytes = serialBytes) ∧
    (16 < serialBytes.length →
      normalizeIvFromSerial serialBytes = serialBytes.take 16) := by
  by_cases h : serialBytes.length = 16
  · refine ⟨by simp [normalizeIvFromSerial, h], ?_, ?_, ?_⟩
    · intro hlt
      omega
    · intro _
      simp [normalizeIvFromSerial, h]
    · intro hgt
      omega
  · have hrw : normalizeIvFromSerial serialBytes =
        serialBytes.take 16 ++ List.replicate (16 - serialBytes.length) 0 := by
      rw [normalizeIvFromSerial, if_neg h, rangeMap_getD_eq]
    refine ⟨?_, ?_, ?_, ?_⟩
    · rw [hrw]
      simp only [List.length_append, List.length_take, List.length_replicate]
      omega
    · intro hlt
      rw [hrw, List.take_of_length_le (by omega)]
    · intro he
      exact absurd he h
    · intro hgt
      rw [hrw, Nat.sub_eq_zero_of_le (by omega)]
      simp

/-- C3 witness: serial bytes `41 42 43` yield that prefix followed by 13 zero
bytes. -/
theorem normalizeIvFromSerial_spec_witness :
    normalizeIvFromSerial [0x41, 0x42, 0x43] =
      [0x41, 0x42, 0x43] ++ List.replicate 13 0 :=
  (normalizeIvFromSerial_spec [0x41, 0x42, 0x43]).2.1 (by decide)

/-- C8: when the response timer fires before any notification, the pending
resolver slot is cleared and the promise rejects with the response-timeout
error (default window 10000 ms); a notification arriving afterwards finds no
resolver and cannot re-settle the stale waiter. -/
theorem waiter_timeout_clears_slot (data : List Nat) :
    (onTimeoutFire initWaiter).slotInstalled = false ∧
    (onTimeoutFire initWaiter).outcome = some .rejectedTimeout ∧
    onNotify data (onTimeoutFire initWaiter) = onTimeoutFire initWaiter ∧
    defaultResponseTimeoutMs = 10000 := by
  refine ⟨rfl, rfl, ?_, rfl⟩
  simp [onNotify, onTimeoutFire, initWaiter]

/-- `mapSet` behaves as a functional update under `mapGet`. -/
theorem mapGet_mapSet (m : TlvMap) (k : Nat) (v : List Nat) (t : Nat) :
    mapGet (mapSet m k v) t = if t = k then some v else mapGet m t := by
  induction m with
  | nil =>
    by_cases htk : t = k <;> simp [mapSet, mapGet, htk]
  | cons a rest ih =>
    obtain ⟨ak, av⟩ := a
    by_cases hak : ak = k
    · subst hak
      by_cases htk : t = ak <;> simp [mapSet, mapGet, htk]
    · by_cases hta : t = ak
      · subst hta
        have htk : ¬t = k := hak
        simp [mapSet, mapGet, hak, htk]
      · simp [mapSet, mapGet, hak, hta, ih]

/-- `buildTlvBuffer` unfolds one record at a time. -/
theorem buildTlvBuffer_cons (r : TlvRecord) (l : List TlvRecord) :
    buildTlvBuffer (r :: l) =
      (r.type % 256 :: r.value.length % 256 :: r.value.map (· % 256)) ++
        buildTlvBuffer l := by
  simp [buildTlvBuffer]

/-- Mapping `% 256` over a list of bytes is the identity. -/
theorem map_mod256_eq_self (l : List Nat) (h : ∀ b ∈ l, b < 256) :
    l.map (· % 256) = l := by
  induction l with
  | nil => simp
  | cons b t ih =>
    rw [List.map_cons, Nat.mod_eq_of_lt (h b (by simp)),
      ih (fun x hx => h x (by simp [hx]))]

/-- The parse loop on an exhausted stream returns the accumulator at any fuel. -/
theorem parseTlvGo_nil (fuel : Nat) (m : TlvMap) :
    parseTlvGo fuel [] m = m := by
  cases fuel <;> rfl

/-- One well-formed TLV record at the head of the stream parses into one
`mapSet` and the loop continues past it. -/
theorem parseTlvGo_step (fuel ty : Nat) (v buf : List Nat) (m : TlvMap) :
    parseTlvGo (fuel + 1) (ty :: v.length :: (v ++ buf)) m =
      parseTlvGo fuel buf (mapSet m ty v) := by
  rw [parseTlvGo]
  rw [if_pos (by simp)]
  rw [List.take_left, List.drop_left]

/-- Each record contributes at least one byte to its encoding. -/
theorem buildTlvBuffer_length_ge (l : List TlvRecord) :
    l.length ≤ (buildTlvBuffer l).length := by
  induction l with
  | nil => simp [buildTlvBuffer]
  | cons r rest ih =>
    rw [buildTlvBuffer_cons]
    simp only [List.length_append, List.length_cons]
    omega

/-- Parsing the encoding of a well-formed record list folds `mapSet` over it,
given at least one unit of fuel per record. -/
theorem parseTlvGo_build (l : List TlvRecord) (m : TlvMap) (fuel : Nat)
    (hfuel : l.length ≤ fuel)
    (h : ∀ r ∈ l, r.type < 256 ∧ r.value.length ≤ 255 ∧ ∀ b ∈ r.value, b < 256) :
    parseTlvGo fuel (buildTlvBuffer l) m =
      l.foldl (fun acc r => mapSet acc r.type r.value) m := by
  induction l generalizing m fuel with
  | nil =>
    rw [show buildTlvBuffer [] = [] from rfl, parseTlvGo_nil]
    rfl
  | cons r rest ih =>
    obtain ⟨ht, hl, hb⟩ := h r (by simp)
    obtain ⟨fuel', rfl⟩ : ∃ f, fuel = f + 1 := ⟨fuel - 1, by simp at hfuel; omega⟩
    rw [buildTlvBuffer_cons, Nat.mod_eq_of_lt ht, Nat.mod_eq_of_lt (by omega),
      map_mod256_eq_self r.value hb]
    rw [show (r.type :: r.value.length :: r.value) ++ buildTlvBuffer rest =
      r.type :: r.value.length :: (r.value ++ buildTlvBuffer rest) by simp]
    rw [parseTlvGo_step,
      ih (mapSet m r.type r.value) fuel'
        (by simp only [List.length_cons] at hfuel; omega)
        (fun x hx => h x (List.mem_cons_of_mem r hx))]
    simp

/-- Folding `mapSet` over records realizes the last-write-wins lookup. -/
theorem mapGet_foldl_mapSet (l : List TlvRecord) (m : TlvMap) (t : Nat) :
    mapGet (l.foldl (fun acc r => mapSet acc r.type r.value) m) t =
      match lastWriteWinsLookup l t with
      | some v => some v
      | none => mapGet m t := by
  induction l generalizing m with
  | nil => simp [lastWriteWinsLookup]
  | cons r rest ih =>
    simp only [List.foldl_cons, lastWriteWinsLookup]
    rw [ih]
    cases hrest : lastWriteWinsLookup rest t with
    | some v => simp
    | none =>
      by_cases htr : t = r.type
      · simp [htr, mapGet_mapSet]
      · simp [htr, mapGet_mapSet]

/-- C4: decoding the encoding of any record sequence with byte-sized types and
values of at most 255 bytes yields exactly the last-write-wins type→value
mapping, with no other entries. -/
theorem tlv_roundtrip_lastWriteWins (l : List TlvRecord)
    (h : ∀ r ∈ l, r.type < 256 ∧ r.value.length ≤ 255 ∧ ∀ b ∈ r.value, b < 256)
    (t : Nat) :
    mapGet (parseTlv (buildTlvBuffer l)) t = lastWriteWinsLookup l t := by
  unfold parseTlv
  rw [parseTlvGo_build l [] (buildTlvBuffer l).length (buildTlvBuffer_length_ge l) h,
    mapGet_foldl_mapSet]
  cases hl : lastWriteWinsLookup l t with
  | some v => simp
  | none => simp [mapGet]

/-- C4 witness: a duplicate-type sequence decodes to its last occurrence. -/
theorem tlv_roundtrip_lastWriteWins_witness :
    mapGet (parseTlv (buildTlvBuffer
      [⟨0xA1, [1, 2]⟩, ⟨0xA2, []⟩, ⟨0xA1, [9]⟩])) 0xA1 = some [9] := by
  rw [tlv_roundtrip_lastWriteWins
    [⟨0xA1, [1, 2]⟩, ⟨0xA2, []⟩, ⟨0xA1, [9]⟩] (by decide) 0xA1]
  decide

/-- ORing a byte with a value shifted left by 8 is addition. -/
theorem lor_shiftLeft_eight (a b : Nat) (ha : a < 256) :
    a ||| (b <<< 8) = a + b <<< 8 := by
  apply Nat.eq_of_testBit_eq
  intro j
  rw [Nat.testBit_or, Nat.testBit_shiftLeft]
  rw [show a + b <<< 8 = 2 ^ 8 * b + a by rw [Nat.shiftLeft_eq]; ring]
  rw [Nat.testBit_mul_pow_two_add b (by simpa using ha) j]
  by_cases hj : j < 8
  · have h8 : ¬(8 ≤ j) := by omega
    simp [hj, h8]
  · have h8 : 8 ≤ j := by omega
    have haj : Nat.testBit a j = false := by
      apply Nat.testBit_lt_two_pow
      calc a < 256 := ha
        _ = 2 ^ 8 := by norm_num
        _ ≤ 2 ^ j := Nat.pow_le_pow_right (by norm_num) h8
    simp [hj, h8, haj]

/-- In-bounds `parseU16LE` on byte-valued data is the little-endian value. -/
theorem parseU16LE_eq (data : List Nat) (i : Nat) (hi : i + 1 < data.length)
    (hb : data.getD i 0 < 256) :
    parseU16LE data i = data.getD i 0 + 256 * data.getD (i + 1) 0 := by
  unfold parseU16LE
  rw [if_neg (by omega)]
  rw [show Nat.shiftLeft (data.getD (i + 1) 0) 8 = data.getD (i + 1) 0 <<< 8 from rfl]
  rw [show Nat.lor (data.getD i 0) (data.getD (i + 1) 0 <<< 8) =
    data.getD i 0 ||| (data.getD (i + 1) 0 <<< 8) from rfl]
  rw [lor_shiftLeft_eight _ _ hb, Nat.shiftLeft_eq]
  ring

/-- Rounding an integer-valued rational is the identity. -/
theorem mathRound_natCast (n : Nat) : mathRound (n : ℚ) = (n : ℤ) := by
  unfold mathRound
  rw [show ((n : ℚ) + 1 / 2) = (1 / 2 + ((n : ℤ) : ℚ)) by push_cast; ring]
  rw [Int.floor_add_int]
  norm_num

/-- An element read via `getD` inside the bounds is an element of the list. -/
theorem getD_mem_of_lt (data : List Nat) (i : Nat) (hi : i < data.length) :
    data.getD i 0 ∈ data := by
  rw [List.getD_eq_getElem data 0 hi]
  exact List.getElem_mem hi

/-- C7: the charger port decoder on records of at least 8 bytes returns an
all-zero Off record whenever the enabled flag (byte 1) is 0 or both the LE u16
millivolts (bytes 2-3) and LE u16 raw current (bytes 4-5) are zero, and
otherwise mode Output with voltage `millivolts/1000` and current `raw/1000`. -/
theorem parseA2687PortData_spec (value : List Nat) (h8 : 8 ≤ value.length)
    (hb : ∀ b ∈ value, b < 256) :
    ((value.getD 1 0 = 0 ∨ (parseU16LE value 2 = 0 ∧ parseU16LE value 4 = 0)) →
      parseA2687PortData value =
        { mode := .Off, voltage := 0, current := 0, power := 0 }) ∧
    (value.getD 1 0 ≠ 0 → ¬(parseU16LE value 2 = 0 ∧ parseU16LE value 4 = 0) →
      (parseA2687PortData value).mode = .Output ∧
      (parseA2687PortData value).voltage =
        ((value.getD 2 0 : ℚ) + 256 * (value.getD 3 0 : ℚ)) / 1000 ∧
      (parseA2687PortData value).current =
        ((value.getD 4 0 : ℚ) + 256 * (value.getD 5 0 : ℚ)) / 1000) := by
  have hnl : ¬value.length < 8 := by omega
  constructor
  · intro hoff
    unfold parseA2687PortData
    rw [if_neg hnl, if_pos hoff]
  · intro hflag hnz
    have hcond : ¬(value.getD 1 0 = 0 ∨
        (parseU16LE value 2 = 0 ∧ parseU16LE value 4 = 0)) := by
      intro hc
      cases hc with
      | inl h => exact hflag h
      | inr h => exact hnz h
    have hv : parseU16LE value 2 =
        value.getD 2 0 + 256 * value.getD 3 0 :=
      parseU16LE_eq value 2 (by omega) (hb _ (getD_mem_of_lt value 2 (by omega)))
    have hc : parseU16LE value 4 =
        value.getD 4 0 + 256 * value.getD 5 0 :=
      parseU16LE_eq value 4 (by omega) (hb _ (getD_mem_of_lt value 4 (by omega)))
    have hround : ∀ n : Nat,
        ((mathRound ((n : ℚ) / 1000 * 1000) : ℤ) : ℚ) / 1000 = (n : ℚ) / 1000 := by
      intro n
      rw [div_mul_cancel₀ _ (by norm_num : (1000 : ℚ) ≠ 0), mathRound_natCast]
      norm_num
    unfold parseA2687PortData
    rw [if_neg hnl, if_neg hcond]
    refine ⟨rfl, ?_, ?_⟩
    · show ((mathRound ((parseU16LE value 2 : ℚ) / 1000 * 1000) : ℤ) : ℚ) / 1000 = _
      rw [hround, hv]
      push_cast
      ring
    · show ((mathRound ((parseU16LE value 4 : ℚ) / 1000 * 1000) : ℤ) : ℚ) / 1000 = _
      rw [hround, hc]
      push_cast
      ring

/-- C7 witness: an enabled port reporting 10000 mV and raw current 1000
decodes as Output at 10 V and 1 A. -/
theorem parseA2687PortData_spec_witness :
    (parseA2687PortData [4, 1, 0x10, 0x27, 0xE8, 0x03, 0, 0]).mode = .Output ∧
    (parseA2687PortData [4, 1, 0x10, 0x27, 0xE8, 0x03, 0, 0]).voltage = 10 ∧
    (parseA2687PortData [4, 1, 0x10, 0x27, 0xE8, 0x03, 0, 0]).current = 1 := by
  have h := (parseA2687PortData_spec [4, 1, 0x10, 0x27, 0xE8, 0x03, 0, 0]
    (by decide) (by decide)).2 (by decide) (by decide)
  refine ⟨h.1, ?_, ?_⟩
  · rw [h.2.1]
    norm_num
  · rw [h.2.2]
    norm_num

/-- C2 (amended): the live-status decoder (0x050E) is a patch-merge onto the
last known status — each of its fields keeps its prior value when its TLV tag
is absent, and temperature is never touched — and the charger decoder
(0x0200/0x0300/0x020A) likewise patch-merges its three port fields (A5/A6/A7),
battery and temperature (A9), though it always recomputes both totals from the
port powers; but the comprehensive decoders (0x0500/0x0D00) rebuild the status
from a zeroed record independently of the prior status, so fields whose tags
are absent there are reset to zero. -/
theorem statusParsers_patch_semantics (tlv : TlvMap) (st st' : ServiceState)
    (now now' : Nat) :
    (mapGet tlv 0xa2 = none →
      (parseLivePowerStatus tlv st now).state.lastPowerStatus.usbC1 =
        st.lastPowerStatus.usbC1) ∧
    (mapGet tlv 0xa3 = none →
      (parseLivePowerStatus tlv st now).state.lastPowerStatus.usbC2 =
        st.lastPowerStatus.usbC2) ∧
    (mapGet tlv 0xa4 = none →
      (parseLivePowerStatus tlv st now).state.lastPowerStatus.usbA =
        st.lastPowerStatus.usbA) ∧
    (mapGet tlv 0xa6 = none →
      (parseLivePowerStatus tlv st now).state.lastPowerStatus.totalOutputW =
        st.lastPowerStatus.totalOutputW ∧
      (parseLivePowerStatus tlv st now).state.lastPowerStatus.totalInputW =
        st.lastPowerStatus.totalInputW) ∧
    (mapGet tlv 0xa8 = none →
      (parseLivePowerStatus tlv st now).state.lastPowerStatus.batteryPercent =
        st.lastPowerStatus.batteryPercent) ∧
    ((parseLivePowerStatus tlv st now).state.lastPowerStatus.temperature =
      st.lastPowerStatus.temperature) ∧
    (mapGet tlv 0xa5 = none →
      (parseA2687Status tlv st now).state.lastPowerStatus.usbC1 =
        st.lastPowerStatus.usbC1) ∧
    (mapGet tlv 0xa6 = none →
      (parseA2687Status tlv st now).state.lastPowerStatus.usbC2 =
        st.lastPowerStatus.usbC2) ∧
    (mapGet tlv 0xa7 = none →
      (parseA2687Status tlv st now).state.lastPowerStatus.usbA =
        st.lastPowerStatus.usbA) ∧
    (mapGet tlv 0xa9 = none →
      (parseA2687Status tlv st now).state.lastPowerStatus.temperature =
        st.lastPowerStatus.temperature) ∧
    ((parseA2687Status tlv st now).state.lastPowerStatus.batteryPercent =
      st.lastPowerStatus.batteryPercent) ∧
    ((parseComprehensiveStatus tlv st now).state.lastPowerStatus =
      (parseComprehensiveStatus tlv st' now').state.lastPowerStatus) := by
  refine ⟨?_, ?_, ?_, ?_, ?_, ?_, ?_, ?_, ?_, ?_, ?_, ?_⟩
  · intro h
    simp only [parseLivePowerStatus, h]
    repeat' split
    all_goals rfl
  · intro h
    simp only [parseLivePowerStatus, h]
    repeat' split
    all_goals rfl
  · intro h
    simp only [parseLivePowerStatus, h]
    repeat' split
    all_goals rfl
  · intro h
    simp only [parseLivePowerStatus, h]
    constructor
    all_goals repeat' split
    all_goals rfl
  · intro h
    simp only [parseLivePowerStatus, h]
    repeat' split
    all_goals rfl
  · simp only [parseLivePowerStatus]
    repeat' split
    all_goals rfl
  · intro h
    simp only [parseA2687Status, h]
    repeat' split
    all_goals rfl
  · intro h
    simp only [parseA2687Status, h]
    repeat' split
    all_goals rfl
  · intro h
    simp only [parseA2687Status, h]
    repeat' split
    all_goals rfl
  · intro h
    simp only [parseA2687Status, h]
    repeat' split
    all_goals rfl
  · simp only [parseA2687Status]
    repeat' split
    all_goals rfl
  · rfl

/-- C2 witness: an empty TLV map leaves the live-status port C1 at its prior
value. -/
theorem statusParsers_patch_semantics_witness :
    (parseLivePowerStatus [] (mkDemoState demoStatus50) 0).state.lastPowerStatus.usbC1 =
      demoStatus50.usbC1 :=
  (statusParsers_patch_semantics [] (mkDemoState demoStatus50)
    (mkDemoState demoStatus50) 0 0).1 rfl

/-- C2 counterexample to the claim as stated, at two concrete inputs.  First,
a prior status with battery 50% followed by a comprehensive-status response
(0x0500) carrying only a temperature TLV (tag B3) leaves battery at 0, not 50
— the comprehensive decoder starts from a zeroed record instead of patching
the prior status.  Second, a charger-status response (0x0200) whose decrypted
TLV map is empty still changes both totals (recomputed from the prior port
powers: 7 W and 3 W become 5 W) although no totals tag is present. -/
theorem comprehensiveStatus_counterexample :
    mapGet (parseDecryptedTlv [0xB3, 2, 0, 30]) 0xA2 = none ∧
    demoStatus50.batteryPercent = 50 ∧
    (processDecryptedContent 0x0500 [0xB3, 2, 0, 30]
      (mkDemoState demoStatus50) 0).state.lastPowerStatus.batteryPercent = 0 ∧
    parseDecryptedTlv [] = [] ∧
    demoStatus50.totalOutputW = 7 ∧
    demoStatus50.totalInputW = 3 ∧
    (processDecryptedContent 0x0200 []
      (mkDemoState demoStatus50) 0).state.lastPowerStatus.totalOutputW = 5 ∧
    (processDecryptedContent 0x0200 []
      (mkDemoState demoStatus50) 0).state.lastPowerStatus.totalInputW = 5 := by
  have hval : roundTo1 (max 0 (5 : ℚ) + max 0 0 + max 0 0) = 5 := by
    rw [show max 0 (5 : ℚ) + max 0 0 + max 0 0 = 5 by
      rw [max_eq_right (by norm_num : (0 : ℚ) ≤ 5), max_self]
      ring]
    unfold roundTo1
    rw [show (5 : ℚ) * 10 = ((50 : ℕ) : ℚ) by norm_num, mathRound_natCast]
    norm_num
  refine ⟨by decide, by decide, by decide, by decide, by decide, by decide, ?_, ?_⟩
  · show roundTo1 (max 0 (5 : ℚ) + max 0 0 + max 0 0) = 5
    exact hval
  · show roundTo1 (max 0 (5 : ℚ) + max 0 0 + max 0 0) = 5
    exact hval

/-- The status dispatch ignores every ACK-only TLV set. -/
theorem dispatchStatus_ackOnly (n : Nat) (tlv : TlvMap) (st : ServiceState)
    (now : Nat) (hack : isAckOnlyStatusTlv tlv = true) :
    dispatchStatus n tlv st now =
      { state := st, powerEvent := none, cryptoEvent := none } := by
  unfold dispatchStatus
  split_ifs <;> simp_all

/-- C6: an ACK-only decrypted response (exactly one TLV entry, tag A1 with a
1-byte value) to any status command leaves the stored power status unchanged
and emits no power-status event. -/
theorem ackOnly_leaves_status_unchanged (command : Nat) (decrypted : List Nat)
    (st : ServiceState) (now : Nat)
    (hack : isAckOnlyStatusTlv (parseDecryptedTlv decrypted) = true)
    (hcmd : Nat.land command 0xF7FF = CMD_STATUS_FULL ∨
      Nat.land command 0xF7FF = CMD_STATUS_ALT_FULL ∨
      Nat.land command 0xF7FF = CMD_STATUS_LIVE ∨
      Nat.land command 0xF7FF = CMD_CHARGER_STATUS_FULL ∨
      Nat.land command 0xF7FF = CMD_CHARGER_STATUS_LIVE ∨
      Nat.land command 0xF7FF = CMD_CHARGER_STATUS_AUX) :
    (processDecryptedContent command decrypted st now).state.lastPowerStatus =
      st.lastPowerStatus ∧
    (processDecryptedContent command decrypted st now).powerEvent = none := by
  have hdisp := dispatchStatus_ackOnly (Nat.land command 0xF7FF)
    (parseDecryptedTlv decrypted) st now hack
  simp only [processDecryptedContent]
  by_cases hI : st.cryptoState = .Initial
  · rw [if_pos hI]
    cases hk : mapGet (parseDecryptedTlv decrypted) 0xa1 with
    | none =>
      dsimp only
      exact ⟨by rw [hdisp], by rw [hdisp]⟩
    | some k =>
      dsimp only
      have hk1 : k.length = 1 := by
        unfold isAckOnlyStatusTlv at hack
        rw [hk] at hack
        simp only [Bool.and_eq_true, beq_iff_eq, Option.isSome_some,
          Option.getD_some] at hack
        exact hack.2
      rw [if_neg (show ¬k.length = 16 by omega)]
      exact ⟨by rw [hdisp], by rw [hdisp]⟩
  · rw [if_neg hI]
    exact ⟨by rw [hdisp], by rw [hdisp]⟩

/-- C6 witness: a full prior status followed by an ACK-only 0x0500 response is
left byte-for-byte unchanged and no event fires. -/
theorem ackOnly_leaves_status_unchanged_witness :
    (processDecryptedContent 0x0500 [0xA1, 1, 0x21]
      (mkDemoState demoStatus50) 0).state.lastPowerStatus = demoStatus50 ∧
    (processDecryptedContent 0x0500 [0xA1, 1, 0x21]
      (mkDemoState demoStatus50) 0).powerEvent = none :=
  ackOnly_leaves_status_unchanged 0x0500 [0xA1, 1, 0x21]
    (mkDemoState demoStatus50) 0 (by decide) (Or.inl (by decide))

/-- C9: while the crypto state is `Initial`, any decrypted notification whose
TLV map carries a 16-byte value under tag A1 installs that value as the AES
key, keeps the IV, moves the crypto state to `Session`, and performs no status
parsing (status unchanged, no power event). -/
theorem sessionKey_install_spec (command : Nat) (decrypted : List Nat)
    (st : ServiceState) (now : Nat) (k : List Nat)
    (hI : st.cryptoState = .Initial)
    (hk : mapGet (parseDecryptedTlv decrypted) 0xa1 = some k)
    (hlen : k.length = 16) :
    (processDecryptedContent command decrypted st now).state.activeKey = some k ∧
    (processDecryptedContent command decrypted st now).state.activeIv =
      st.activeIv ∧
    (processDecryptedContent command decrypted st now).state.cryptoState =
      .Session ∧
    (processDecryptedContent command decrypted st now).state.lastPowerStatus =
      st.lastPowerStatus ∧
    (processDecryptedContent command decrypted st now).powerEvent = none ∧
    (processDecryptedContent command decrypted st now).cryptoEvent =
      some .Session := by
  simp only [processDecryptedContent, hk]
  rw [if_pos hI, if_pos hlen]
  exact ⟨rfl, rfl, rfl, rfl, rfl, rfl⟩

/-- C9 witness: a 0x0500-carried A1 TLV of 16 bytes upgrades `Initial` to
`Session` with that key and the prior IV. -/
theorem sessionKey_install_spec_witness :
    (processDecryptedContent 0x0500 ([0xA1, 16] ++ demoKey16)
      { mkDemoState demoStatus50 with cryptoState := .Initial } 0).state.activeKey =
      some demoKey16 ∧
    (processDecryptedContent 0x0500 ([0xA1, 16] ++ demoKey16)
      { mkDemoState demoStatus50 with cryptoState := .Initial } 0).state.cryptoState =
      .Session ∧
    (processDecryptedContent 0x0500 ([0xA1, 16] ++ demoKey16)
      { mkDemoState demoStatus50 with cryptoState := .Initial } 0).state.activeIv =
      List.replicate 16 0 :=
  have h := sessionKey_install_spec 0x0500 ([0xA1, 16] ++ demoKey16)
    { mkDemoState demoStatus50 with cryptoState := .Initial } 0 demoKey16
    (by decide) (by decide) (by decide)
  ⟨h.1, h.2.2.1, h.2.1⟩

/-- A framed `FF 09` packet is never consumed by the charger Solix path and
leaves its synchronous state untouched. -/
theorem chargerGate_framed (rawData : List Nat) (st : ServiceState)
    (h : isFramedPacket rawData = true) :
    tryHandleChargerSolixNotification rawData st = (false, st) := by
  have hne : rawData ≠ [0x68, 0x65, 0x6c, 0x6c, 0x6f] := by
    intro he
    rw [he] at h
    exact absurd h (by decide)
  unfold tryHandleChargerSolixNotification
  split_ifs <;> simp_all

/-- The comprehensive-status decoder never touches the pending slot. -/
theorem parseComprehensiveStatus_pending (tlv : TlvMap) (st : ServiceState)
    (now : Nat) :
    (parseComprehensiveStatus tlv st now).state.pending = st.pending :=
  rfl

/-- The live-status decoder never touches the pending slot. -/
theorem parseLivePowerStatus_pending (tlv : TlvMap) (st : ServiceState)
    (now : Nat) :
    (parseLivePowerStatus tlv st now).state.pending = st.pending :=
  rfl

/-- The charger-status decoder never touches the pending slot. -/
theorem parseA2687Status_pending (tlv : TlvMap) (st : ServiceState) (now : Nat) :
    (parseA2687Status tlv st now).state.pending = st.pending :=
  rfl

/-- The status dispatch never touches the pending slot. -/
theorem dispatchStatus_pending (n : Nat) (tlv : TlvMap) (st : ServiceState)
    (now : Nat) :
    (dispatchStatus n tlv st now).state.pending = st.pending := by
  unfold dispatchStatus
  split_ifs <;>
    simp [parseComprehensiveStatus_pending, parseLivePowerStatus_pending,
      parseA2687Status_pending]

/-- Processing decrypted content never touches the pending slot. -/
theorem processDecryptedContent_pending (c : Nat) (d : List Nat)
    (st : ServiceState) (now : Nat) :
    (processDecryptedContent c d st now).state.pending = st.pending := by
  simp only [processDecryptedContent]
  split_ifs with hI
  · cases hk : mapGet (parseDecryptedTlv d) 0xa1 with
    | none =>
      dsimp only
      exact dispatchStatus_pending _ _ _ _
    | some k =>
      dsimp only
      split_ifs with h16
      · rfl
      · exact dispatchStatus_pending _ _ _ _
  · exact dispatchStatus_pending _ _ _ _

/-- Skipping an ill-sized candidate in the decrypt loop. -/
theorem tryDecryptCandidates_skip (dec : List Nat → Option (List Nat))
    (c : List Nat) (cs : List (List Nat))
    (h : c.length < 16 ∨ c.length % 16 ≠ 0) :
    tryDecryptCandidates dec (c :: cs) = tryDecryptCandidates dec cs := by
  rw [tryDecryptCandidates, if_pos h]

/-- C10: when decryption fails for every candidate slice of an encrypted
notification, the pending waiter is resolved with the original raw
notification bytes (never rejected) and the stored power status is left
unchanged, with no power-status event. -/
theorem decrypt_failure_resolves_raw (dec : List Nat → Option (List Nat))
    (rawData p : List Nat) (st : ServiceState) (now : Nat)
    (hframed : isFramedPacket rawData = true)
    (hp : p = (rawData.drop 4).dropLast)
    (hlen : p.length ≥ 5)
    (henc : Nat.land (p.getD 3 0) COMMAND_FLAG_ENCRYPTED ≠ 0)
    (hkey : st.activeKey.isSome = true)
    (hpend : st.pending = true)
    (hfail : tryDecryptCandidates dec (mkDecryptCandidates p) = none) :
    (handleNotification dec rawData st now).resolved = some rawData ∧
    (handleNotification dec rawData st now).state.lastPowerStatus =
      st.lastPowerStatus ∧
    (handleNotification dec rawData st now).powerEvent = none := by
  have hlen5 : ¬rawData.length < 5 := by
    unfold isFramedPacket at hframed
    simp only [Bool.and_eq_true, decide_eq_true_eq] at hframed
    omega
  have hgate : (if st.profileIsCharger = true
      then tryHandleChargerSolixNotification rawData st else (false, st)) =
      (false, st) := by
    cases hc : st.profileIsCharger
    · simp
    · simp [chargerGate_framed rawData st hframed]
  simp only [handleNotification, hgate, if_neg hlen5, ← hp]
  rw [if_pos hlen, if_pos henc]
  rw [show st.activeKey.isNone = false by
    cases hst : st.activeKey
    · rw [hst] at hkey; exact absurd hkey (by decide)
    · rfl]
  simp only [Bool.false_eq_true, if_false, hfail]
  simp [resolvePending, hpend]

/-- C10 witness: an all-candidates decryption failure hands the raw framed
notification to the waiter and leaves the stored status intact. -/
theorem decrypt_failure_resolves_raw_witness :
    (handleNotification (fun _ => none) demoRawEnc
      (mkDemoState demoStatus50) 0).resolved = some demoRawEnc ∧
    (handleNotification (fun _ => none) demoRawEnc
      (mkDemoState demoStatus50) 0).state.lastPowerStatus = demoStatus50 :=
  have h := decrypt_failure_resolves_raw (fun _ => none) demoRawEnc
    demoPayloadWH (mkDemoState demoStatus50) 0 (by decide) (by decide)
    (by decide) (by decide) (by decide) (by decide) (by decide)
  ⟨h.1, h.2.1⟩

/-- C5: when the offset-5 slice of an encrypted response payload has a length
that is not a multiple of 16, the decrypt attempt skips it and falls back to
the offset-6 slice; and whatever the decryption oracle does, the notification
handler still resolves the pending waiter (no exception escapes it). -/
theorem decrypt_offset_fallback (dec : List Nat → Option (List Nat))
    (rawData p : List Nat) (st : ServiceState) (now : Nat)
    (hframed : isFramedPacket rawData = true)
    (hp : p = (rawData.drop 4).dropLast)
    (hlen : p.length ≥ 5)
    (henc : Nat.land (p.getD 3 0) COMMAND_FLAG_ENCRYPTED ≠ 0)
    (hkey : st.activeKey.isSome = true)
    (hpend : st.pending = true)
    (hmod : (p.drop 5).length % 16 ≠ 0) :
    tryDecryptCandidates dec (mkDecryptCandidates p) =
      tryDecryptCandidates dec [p.drop 6] ∧
    (handleNotification dec rawData st now).resolved.isSome = true := by
  constructor
  · unfold mkDecryptCandidates
    by_cases h6 : p.length > 6
    · rw [if_pos h6]
      exact tryDecryptCandidates_skip dec _ _ (Or.inr hmod)
    · rw [if_neg h6]
      have e1 : tryDecryptCandidates dec ([p.drop 5] ++ []) =
          tryDecryptCandidates dec [] :=
        tryDecryptCandidates_skip dec _ _ (Or.inr hmod)
      have e2 : tryDecryptCandidates dec [p.drop 6] =
          tryDecryptCandidates dec [] :=
        tryDecryptCandidates_skip dec _ _
          (Or.inl (by rw [List.length_drop]; omega))
      rw [e1, e2]
  · have hlen5 : ¬rawData.length < 5 := by
      unfold isFramedPacket at hframed
      simp only [Bool.and_eq_true, decide_eq_true_eq] at hframed
      omega
    have hgate : (if st.profileIsCharger = true
        then tryHandleChargerSolixNotification rawData st else (false, st)) =
        (false, st) := by
      cases hc : st.profileIsCharger
      · simp
      · simp [chargerGate_framed rawData st hframed]
    simp only [handleNotification, hgate, if_neg hlen5, ← hp]
    rw [if_pos hlen, if_pos henc]
    rw [show st.activeKey.isNone = false by
      cases hst : st.activeKey
      · rw [hst] at hkey; exact absurd hkey (by decide)
      · rfl]
    simp only [Bool.false_eq_true, if_false]
    cases hd : tryDecryptCandidates dec (mkDecryptCandidates p) with
    | none => simp [resolvePending, hpend]
    | some d =>
      simp [resolvePending, processDecryptedContent_pending, hpend]

/-- C5 witness: a 22-byte encrypted payload (offset-5 slice of length 17)
falls back to the 16-byte offset-6 slice, and a failing oracle still resolves
the waiter. -/
theorem decrypt_offset_fallback_witness :
    tryDecryptCandidates (fun _ => none) (mkDecryptCandidates demoPayloadWH) =
      tryDecryptCandidates (fun _ => none) [demoPayloadWH.drop 6] ∧
    (handleNotification (fun _ => none) demoRawEnc
      (mkDemoState demoStatus50) 0).resolved.isSome = true :=
  decrypt_offset_fallback (fun _ => none) demoRawEnc demoPayloadWH
    (mkDemoState demoStatus50) 0 (by decide) (by decide) (by decide)
    (by decide) (by decide) (by decide) (by decide)

end Kinobench
